import Mathlib

/-!
Verification of the show-cycle production pipeline of the ai_radio_show_bot
repository, as a shallow embedding in Lean 4.

Machine floats are embedded as the exact rational value that the IEEE-754
double denotes; Python integers as `Int`; Python `//` and `%` (floor
division) as `Int.fdiv` and `Int.fmod`; fallible code as `Except`; the
external TTS / HTTP / filesystem effects as explicit oracle parameters.
Python string primitives (`lower`, `strip`, `replace`, `in`, `split`) are
embedded as structurally recursive functions on `List Char` so that every
definition evaluates.
-/

namespace AiRadioShowBot

/-! ## Python string primitives -/

/-- Python `str.lower()` (ASCII range, which covers every string the bot
manipulates). -/
def pyLower (s : String) : String := String.mk (s.data.map Char.toLower)

/-- Python `str.upper()`. -/
def pyUpper (s : String) : String := String.mk (s.data.map Char.toUpper)

/-- Python `str.strip()`: drop leading and trailing whitespace. -/
def pyStrip (s : String) : String :=
  String.mk (((s.data.dropWhile Char.isWhitespace).reverse.dropWhile
    Char.isWhitespace).reverse)

/-- Does `pat` occur as a contiguous sublist of `l`?  (Python `pat in hay`
on the underlying character lists, for non-empty `pat`.) -/
def listContains (l pat : List Char) : Bool :=
  match l with
  | [] => pat.isPrefixOf []
  | _ :: t => pat.isPrefixOf l || listContains t pat

/-- Python `pat in hay` substring test (all patterns used by the code are
non-empty literals). -/
def pyContains (hay pat : String) : Bool := listContains hay.data pat.data

/-- Replace every occurrence of the non-empty pattern `pat` in `l` by
`rep`, scanning left to right (Python `str.replace` semantics; the code
only ever replaces non-empty literals, so the empty pattern is mapped to
the identity). -/
def listReplace (l pat rep : List Char) : List Char :=
  match pat with
  | [] => l
  | p :: ps =>
    match l with
    | [] => []
    | c :: t =>
      if (p :: ps).isPrefixOf (c :: t) then
        rep ++ listReplace ((c :: t).drop (p :: ps).length) (p :: ps) rep
      else
        c :: listReplace t (p :: ps) rep
termination_by l.length
decreasing_by
  · simp only [List.length_drop, List.length_cons]
    omega
  · simp

/-- Python `str.replace(pat, rep)`. -/
def pyReplace (s pat rep : String) : String :=
  String.mk (listReplace s.data pat.data rep.data)

/-- Python `str.split()` with no argument: split on whitespace runs,
discarding empty words. -/
def pySplitWhitespace (s : String) : List String :=
  ((s.data.splitOnP Char.isWhitespace).map String.mk).filter (fun w => w ≠ "")

/-- Python `"sep".join(words)`. -/
def pyJoin (sep : String) (words : List String) : String :=
  String.intercalate sep words

/-! ## Subtitle engine (`subtitle_engine.py`)

`SubtitleEngine._format_timestamp` computes
`milliseconds = round(seconds * 1000.0)` and then carries overflow through
hours / minutes / seconds with `//` and `%`.  The float multiplication
happens before `round`, so the embedding takes as argument the exact
rational value of the IEEE-754 double produced by `seconds * 1000.0`. -/

/-- Python's builtin `round` applied to (the exact rational value of) a
float: round to the nearest integer, ties to even. -/
def pyRound (q : ℚ) : ℤ :=
  let f : ℤ := ⌊q⌋
  let r : ℚ := q - (f : ℚ)
  if r < 1/2 then f
  else if 1/2 < r then f + 1
  else if 2 ∣ f then f else f + 1

/-- The four numeric fields of an SRT timestamp. -/
structure TimeFields where
  hours : ℤ
  minutes : ℤ
  seconds : ℤ
  millis : ℤ
deriving Repr, DecidableEq

/-- The arithmetic core of `SubtitleEngine._format_timestamp`
(`subtitle_engine.py` lines 33-45).  The argument `msq` is the exact
rational value of the double computed by `seconds * 1000.0`; Python `//`
and `%` floor, hence `Int.fdiv` / `Int.fmod`. -/
def format_fields (msq : ℚ) : TimeFields :=
  let ms0 := pyRound msq
  let hours := ms0.fdiv 3600000
  let ms1 := ms0.fmod 3600000
  let minutes := ms1.fdiv 60000
  let ms2 := ms1.fmod 60000
  let seconds := ms2.fdiv 1000
  let millis := ms2.fmod 1000
  ⟨hours, minutes, seconds, millis⟩

/-- Python `f"{n:0Nd}"` for a nonnegative integer: decimal digits,
zero-padded on the left to width `w`. -/
def zpad (w : Nat) (n : ℤ) : String :=
  let s := toString n
  if s.length < w then String.mk (List.replicate (w - s.length) '0' ++ s.data)
  else s

/-- `SubtitleEngine._format_timestamp`: renders
`f"{hours:02d}:{minutes:02d}:{seconds:02d},{milliseconds:03d}"`. -/
def format_timestamp (msq : ℚ) : String :=
  let t := format_fields msq
  zpad 2 t.hours ++ ":" ++ zpad 2 t.minutes ++ ":" ++ zpad 2 t.seconds
    ++ "," ++ zpad 3 t.millis

/-- Exact rational value of the IEEE-754 double computed by Python for
`3661.2005 * 1000.0`.  The double nearest 3661.2005 is
4025532521369305 / 2^40; multiplying it by 1000 and rounding to the
nearest double yields exactly 3661200.5 (hex float 0x1.beec84p+21). -/
def ms_3661_2005 : ℚ := 7322401 / 2

/-- Exact rational value of the IEEE-754 double computed by Python for
`59.9995 * 1000.0`: exactly 59999.5 (hex float 0x1.d4bfp+15). -/
def ms_59_9995 : ℚ := 119999 / 2

lemma floor_ms_3661_2005 : ⌊ms_3661_2005⌋ = 3661200 := by
  norm_num [ms_3661_2005]

lemma floor_ms_59_9995 : ⌊ms_59_9995⌋ = 59999 := by
  norm_num [ms_59_9995]

lemma pyRound_ms_3661_2005 : pyRound ms_3661_2005 = 3661200 := by
  simp only [pyRound, floor_ms_3661_2005]
  norm_num [ms_3661_2005]

lemma pyRound_ms_59_9995 : pyRound ms_59_9995 = 60000 := by
  simp only [pyRound, floor_ms_59_9995]
  norm_num [ms_59_9995]

lemma pyRound_zero : pyRound 0 = 0 := by
  simp only [pyRound]
  norm_num

lemma format_fields_ms_3661_2005 : format_fields ms_3661_2005 = ⟨1, 1, 1, 200⟩ := by
  simp only [format_fields, pyRound_ms_3661_2005]
  decide

lemma format_fields_ms_59_9995 : format_fields ms_59_9995 = ⟨0, 1, 0, 0⟩ := by
  simp only [format_fields, pyRound_ms_59_9995]
  decide

lemma format_fields_zero : format_fields 0 = ⟨0, 0, 0, 0⟩ := by
  simp only [format_fields, pyRound_zero]
  decide

/-- C1 counterexample: on the code, `3661.2005` seconds does NOT format as
`01:01:01,201`.  Python `round` rounds half to even, and the float product
`3661.2005 * 1000.0` is exactly 3661200.5, which rounds down to 3661200,
so the code prints `01:01:01,200`. -/
theorem format_timestamp_3661_2005_not_201 :
    format_timestamp ms_3661_2005 ≠ "01:01:01,201" := by
  simp only [format_timestamp, format_fields_ms_3661_2005]
  decide

/-- C1 (amended): the timestamp formatter rounds the float millisecond
value half-to-even (Python `round`) and then carries overflow exactly:
0 formats as `00:00:00,000`; 3661.2005 (whose float millisecond value is
exactly 3661200.5) formats as `01:01:01,200`; and 59.9995 (float
millisecond value exactly 59999.5) rolls the minute over to
`00:01:00,000` rather than producing a 60 in the seconds field. -/
theorem format_timestamp_boundaries :
    format_timestamp 0 = "00:00:00,000" ∧
    format_timestamp ms_3661_2005 = "01:01:01,200" ∧
    format_timestamp ms_59_9995 = "00:01:00,000" := by
  refine ⟨?_, ?_, ?_⟩ <;>
    simp only [format_timestamp, format_fields_zero, format_fields_ms_3661_2005,
      format_fields_ms_59_9995] <;> decide

/-- C10: for every (nonnegative) millisecond value handed to the carry
arithmetic, the minutes, seconds and milliseconds fields of the formatted
timestamp are in range: minutes < 60, seconds < 60, milliseconds < 1000
(and all are nonnegative). -/
theorem format_fields_in_range (msq : ℚ) (_h : 0 ≤ msq) :
    (format_fields msq).minutes < 60 ∧ (format_fields msq).seconds < 60 ∧
    (format_fields msq).millis < 1000 ∧ 0 ≤ (format_fields msq).minutes ∧
    0 ≤ (format_fields msq).seconds ∧ 0 ≤ (format_fields msq).millis := by
  have efd : ∀ (a b : ℤ), 0 ≤ b → a.fdiv b = a / b := fun a b hb => Int.fdiv_eq_ediv a hb
  have efm : ∀ (a b : ℤ), 0 ≤ b → a.fmod b = a % b := fun a b hb => Int.fmod_eq_emod a hb
  simp only [format_fields, efd _ 3600000 (by norm_num), efm _ 3600000 (by norm_num),
    efd _ 60000 (by norm_num), efm _ 60000 (by norm_num),
    efd _ 1000 (by norm_num), efm _ 1000 (by norm_num)]
  omega

/-- Witness for C10 at the concrete input 59999.5 ms. -/
theorem format_fields_in_range_witness :
    (0 ≤ ms_59_9995) ∧
    ((format_fields ms_59_9995).minutes < 60 ∧
     (format_fields ms_59_9995).seconds < 60 ∧
     (format_fields ms_59_9995).millis < 1000 ∧
     0 ≤ (format_fields ms_59_9995).minutes ∧
     0 ≤ (format_fields ms_59_9995).seconds ∧
     0 ≤ (format_fields ms_59_9995).millis) :=
  ⟨by norm_num [ms_59_9995], format_fields_in_range ms_59_9995 (by norm_num [ms_59_9995])⟩

/-! ## Video engine (`video_engine.py`)

`VideoEngine.split_video_into_parts` (lines 135-177) probes the total
duration, computes `num_parts = math.ceil(video_duration / 150)` and, for
each index `i`, cuts a segment starting at `i * 150` seconds with target
length 150 seconds (`t=150`); the final segment is cut short at the end
of the video.  There is no minimum-length floor anywhere: every part in
`range(num_parts)` is emitted. -/

/-- `config.PART_DURATION_SECONDS` (2.5 minutes). -/
def PART_DURATION_SECONDS : ℚ := 150

/-- `num_parts = math.ceil(video_duration / config.PART_DURATION_SECONDS)`. -/
def num_parts (d : ℚ) : ℕ := (⌈d / PART_DURATION_SECONDS⌉).toNat

/-- `VideoEngine.split_video_into_parts`, at the level of time spans:
`d` is the probed video duration; the `i`-th emitted part starts at
`i * PART_DURATION_SECONDS` and nominally covers
`min PART_DURATION_SECONDS (d - start)` seconds (ffmpeg is invoked with
`ss=start, t=PART_DURATION_SECONDS` and stops at the end of the input). -/
def split_video_into_parts (d : ℚ) : List (ℚ × ℚ) :=
  (List.range (num_parts d)).map fun i : ℕ =>
    (PART_DURATION_SECONDS * (i : ℚ),
     min PART_DURATION_SECONDS (d - PART_DURATION_SECONDS * (i : ℚ)))

lemma split_spans_sum (n : ℕ) : ∀ d : ℚ, 150 * (n : ℚ) < d → d ≤ 150 * ((n : ℚ) + 1) →
    ((List.range (n + 1)).map fun i : ℕ => min (150 : ℚ) (d - 150 * (i : ℚ))).sum = d := by
  induction n with
  | zero =>
    intro d _h1 h2
    have hr : List.range 1 = [0] := rfl
    rw [hr]
    simp only [List.map_cons, List.map_nil, List.sum_cons, List.sum_nil,
      Nat.cast_zero, mul_zero, sub_zero, add_zero]
    rw [min_eq_right]
    push_cast at h2
    linarith
  | succ n ih =>
    intro d h1 h2
    rw [List.range_succ_eq_map]
    simp only [List.map_cons, List.map_map, List.sum_cons, Nat.cast_zero,
      mul_zero, sub_zero]
    have hstep : ((List.range (n + 1)).map
        ((fun i : ℕ => min (150 : ℚ) (d - 150 * (i : ℚ))) ∘ Nat.succ)) =
        (List.range (n + 1)).map fun i : ℕ =>
          min (150 : ℚ) ((d - 150) - 150 * (i : ℚ)) := by
      refine List.map_congr_left fun i _ => ?_
      simp only [Function.comp_apply]
      congr 1
      push_cast
      ring
    have hd150 : min (150 : ℚ) d = 150 := by
      rw [min_eq_left]
      push_cast at h1
      nlinarith [Nat.cast_nonneg (α := ℚ) n]
    have hsum := ih (d - 150) (by push_cast at h1 ⊢; linarith)
      (by push_cast at h2 ⊢; linarith)
    rw [hstep, hd150, hsum]
    ring

/-- C2 counterexample: a 155-second video is split into 2 parts and the
trailing part nominally spans only 5 seconds — shorter than the claimed
~10-second discard floor — yet it IS emitted: the code has no discard
floor at all. -/
theorem split_155_emits_short_trailing_part :
    (split_video_into_parts 155).length = 2 ∧
    (split_video_into_parts 155).getLast? = some (150, 5) ∧ (5 : ℚ) < 10 := by
  have hc : ⌈(155 : ℚ) / 150⌉ = 2 := by
    rw [Int.ceil_eq_iff]
    norm_num
  have hn : num_parts 155 = 2 := by
    simp only [num_parts, PART_DURATION_SECONDS, hc]
    rfl
  refine ⟨?_, ?_, by norm_num⟩
  · simp [split_video_into_parts, hn]
  · simp only [split_video_into_parts, hn, PART_DURATION_SECONDS]
    norm_num [List.range_succ, min_def]

/-- C2 (amended): `split_video_into_parts` is exactly duration-preserving:
the nominal spans of the emitted parts sum to the total video duration
and nothing is discarded (the code has no trailing-remainder floor, so a
trailing segment shorter than 10 seconds is still emitted); a non-empty
video always yields at least one part; and a video no longer than one
part length yields exactly one part. -/
theorem split_video_into_parts_spec (d : ℚ) (hd : 0 < d) :
    ((split_video_into_parts d).map Prod.snd).sum = d ∧
    1 ≤ (split_video_into_parts d).length ∧
    (d ≤ PART_DURATION_SECONDS → (split_video_into_parts d).length = 1) := by
  have h150 : (0 : ℚ) < 150 := by norm_num
  have hpos : (0 : ℚ) < d / 150 := by positivity
  have hceil1 : 1 ≤ ⌈d / (150 : ℚ)⌉ := Int.ceil_pos.mpr hpos
  have hlen : (split_video_into_parts d).length = num_parts d := by
    simp [split_video_into_parts]
  have hnum1 : 1 ≤ num_parts d := by
    simp only [num_parts, PART_DURATION_SECONDS]
    omega
  obtain ⟨n, hn⟩ : ∃ n : ℕ, num_parts d = n + 1 := ⟨num_parts d - 1, by omega⟩
  have hc : ⌈d / (150 : ℚ)⌉ = (n : ℤ) + 1 := by
    simp only [num_parts, PART_DURATION_SECONDS] at hn
    omega
  have hub : d ≤ 150 * ((n : ℚ) + 1) := by
    have h1 := Int.le_ceil (d / (150 : ℚ))
    rw [hc] at h1
    push_cast at h1
    have := (div_le_iff₀ h150).mp h1
    linarith
  have hlb : 150 * (n : ℚ) < d := by
    have h2 := Int.ceil_lt_add_one (d / (150 : ℚ))
    rw [hc] at h2
    push_cast at h2
    have hq : (n : ℚ) < d / 150 := by linarith
    have := (lt_div_iff₀ h150).mp hq
    linarith
  refine ⟨?_, by omega, ?_⟩
  · have hsum := split_spans_sum n d hlb hub
    have hmap : (split_video_into_parts d).map Prod.snd =
        (List.range (n + 1)).map fun i : ℕ => min (150 : ℚ) (d - 150 * (i : ℚ)) := by
      simp only [split_video_into_parts, hn, PART_DURATION_SECONDS, List.map_map]
      rfl
    rw [hmap]
    exact hsum
  · intro hle
    rw [hlen]
    simp only [num_parts, PART_DURATION_SECONDS]
    have hle1 : ⌈d / (150 : ℚ)⌉ ≤ 1 := by
      refine Int.ceil_le.mpr ?_
      push_cast
      rw [div_le_one h150]
      exact hle
    omega

/-- Witness for C2 at the concrete duration 100 s. -/
theorem split_video_into_parts_spec_witness :
    ((0 : ℚ) < 100) ∧
    (((split_video_into_parts 100).map Prod.snd).sum = 100 ∧
     1 ≤ (split_video_into_parts 100).length ∧
     ((100 : ℚ) ≤ PART_DURATION_SECONDS → (split_video_into_parts 100).length = 1)) :=
  ⟨by norm_num, split_video_into_parts_spec 100 (by norm_num)⟩

/-! ## Voice engine (`voice_engine.py`)

`VoiceEngine.generate_show_audio` walks the script in order; per line it
resolves the speaker through the character manager, resolves the voice,
rewrites the text by emotion, synthesizes a clip, appends it to the
running master track and appends a metadata record.  Any exception in the
per-line `try` block (unknown speaker id, TTS failure) logs and
`continue`s.  TTS and clip decoding are external; they are modeled by an
oracle `ℕ → String → String → Option ℕ` giving the millisecond length of
the clip synthesized for line `i` from (emotionalized text, vits speaker),
or `none` when that call raises. -/

/-- A cast member as stored by `CharacterManager` (`character_manager.py`). -/
structure Character where
  id : ℤ
  name : String
  gender : String
  voice : String
deriving Repr, DecidableEq

/-- `VOICE_MODEL_MAP` (`voice_engine.py` lines 24-29), voice-key to VCTK
speaker. -/
def VOICE_MODEL_MAP : List (String × String) :=
  [("vits_male_01", "p226"), ("vits_female_01", "p225"),
   ("vits_male_02", "p237"), ("vits_female_02", "p236")]

/-- Speaker resolution (`voice_engine.py` lines 110-117): explicit table
lookup, falling back by gender to p226 (male) / p225 (female). -/
def resolve_speaker (c : Character) : String :=
  match VOICE_MODEL_MAP.lookup c.voice with
  | some s => s
  | none => if c.gender = "male" then "p226" else "p225"

/-- Gender of each VCTK voice used by the engine, per the comment block
above `VOICE_MODEL_MAP`: p226/p237 male, p225/p236 female. -/
def voice_gender (v : String) : Option String :=
  [("p226", "male"), ("p225", "female"),
   ("p237", "male"), ("p236", "female")].lookup v

/-- `VoiceEngine._emotionalize_text`: rewrites the line text by emotion
tag to force prosody changes. -/
def emotionalize_text (text emotion : String) : String :=
  if emotion = "" then text
  else
    let e := pyLower emotion
    if ["angr", "yell", "shout", "furious", "mad"].any (fun x => pyContains e x) then
      pyReplace (pyUpper text) " " ". " ++ "!"
    else if ["shock", "surpris", "disbelief", "no way", "what"].any
        (fun x => pyContains e x) then
      pyReplace (pyReplace text "?" "?!") "!" "?!" ++ "?!"
    else if ["nervous", "awkward", "hesitant", "shy", "uncomfortable"].any
        (fun x => pyContains e x) then
      let words := pySplitWhitespace text
      let words :=
        if words.length > 3 then words.insertIdx (words.length / 2) "...um..."
        else words
      "Um... " ++ pyJoin " " words ++ "..."
    else if ["excit", "happy", "laugh", "funny", "lol"].any
        (fun x => pyContains e x) then
      text ++ "! Ha! Ha!"
    else if ["sarcas", "sassy", "ironic"].any (fun x => pyContains e x) then
      "\"" ++ text ++ "\"... really?"
    else text

/-- One line of the script as consumed by the voice engine. -/
structure ScriptLine where
  speaker_id : ℤ
  text : String
  emotion : String
deriving Repr, DecidableEq

/-- One element of `line_audio_metadata`. -/
structure LineRecord where
  path : String
  duration_ms : ℕ
  speaker_id : ℤ
  text : String
deriving Repr, DecidableEq

/-- The per-line file name `line_{i:03d}_{speaker_id}.wav`. -/
def line_filename (i : ℕ) (speaker_id : ℤ) : String :=
  "line_" ++ zpad 3 (i : ℤ) ++ "_" ++ toString speaker_id ++ ".wav"

/-- Body of the per-line `try` block of `VoiceEngine.generate_show_audio`:
resolve the speaker through the cast lookup (a failed lookup raises
KeyError), resolve the voice, emotionalize the text, synthesize.  `none`
means the iteration hit an exception and was skipped by `continue`;
`some (dur, rec)` means a clip of `dur` ms was appended to the master
track together with its metadata record. -/
def process_line (cast : ℤ → Option Character) (tts : ℕ → String → String → Option ℕ)
    (i : ℕ) (line : ScriptLine) : Option (ℕ × LineRecord) :=
  match cast line.speaker_id with
  | none => none
  | some character =>
    let speaker := resolve_speaker character
    let final_text := emotionalize_text line.text line.emotion
    match tts i final_text speaker with
    | none => none
    | some dur =>
      some (dur, ⟨line_filename i line.speaker_id, dur, line.speaker_id, line.text⟩)

/-- The loop of `VoiceEngine.generate_show_audio` from line index `i`:
returns (master track as the ordered list of appended clip lengths,
`line_audio_metadata`). -/
def generate_show_audio_go (cast : ℤ → Option Character)
    (tts : ℕ → String → String → Option ℕ) :
    ℕ → List ScriptLine → List ℕ × List LineRecord
  | _, [] => ([], [])
  | i, line :: rest =>
    match process_line cast tts i line with
    | none => generate_show_audio_go cast tts (i + 1) rest
    | some (dur, rec) =>
      let t := generate_show_audio_go cast tts (i + 1) rest
      (dur :: t.1, rec :: t.2)

/-- `VoiceEngine.generate_show_audio` (`voice_engine.py` lines 92-153);
the master audio is the ordered concatenation of the clips in the first
component, the second component is the returned metadata list. -/
def generate_show_audio (cast : ℤ → Option Character)
    (tts : ℕ → String → String → Option ℕ) (script : List ScriptLine) :
    List ℕ × List LineRecord :=
  generate_show_audio_go cast tts 0 script

lemma process_line_speaker {cast : ℤ → Option Character}
    {tts : ℕ → String → String → Option ℕ} {i : ℕ} {line : ScriptLine}
    {x : ℕ × LineRecord} (h : process_line cast tts i line = some x) :
    (cast line.speaker_id).isSome = true ∧ x.2.speaker_id = line.speaker_id ∧
    x.1 = x.2.duration_ms := by
  cases hc : cast line.speaker_id with
  | none => simp [process_line, hc] at h
  | some character =>
    cases ht : tts i (emotionalize_text line.text line.emotion)
        (resolve_speaker character) with
    | none => simp [process_line, hc, ht] at h
    | some dur =>
      simp only [process_line, hc, ht, Option.some.injEq] at h
      subst h
      exact ⟨by simp [hc], rfl, rfl⟩

lemma generate_show_audio_go_eq (cast : ℤ → Option Character)
    (tts : ℕ → String → String → Option ℕ) :
    ∀ (script : List ScriptLine) (i : ℕ),
      generate_show_audio_go cast tts i script =
        ((script.enumFrom i).filterMap fun p =>
          (process_line cast tts p.1 p.2).map Prod.fst,
         (script.enumFrom i).filterMap fun p =>
          (process_line cast tts p.1 p.2).map Prod.snd) := by
  intro script
  induction script with
  | nil => intro i; rfl
  | cons line rest ih =>
    intro i
    cases hp : process_line cast tts i line with
    | none =>
      simp only [generate_show_audio_go, hp, List.enumFrom_cons,
        List.filterMap_cons]
      simp [hp, ih (i + 1)]
    | some x =>
      simp only [generate_show_audio_go, hp, List.enumFrom_cons,
        List.filterMap_cons]
      simp [hp, ih (i + 1)]

lemma filterMap_eq_of_filter {α β : Type} (f : α → Option β) (p : α → Bool) :
    ∀ l : List α, (∀ x ∈ l, p x = false → f x = none) →
      l.filterMap f = (l.filter p).filterMap f := by
  intro l
  induction l with
  | nil => intro _; rfl
  | cons a t ih =>
    intro h
    by_cases hp : p a = true
    · simp only [List.filter_cons, hp, if_true, List.filterMap_cons]
      rw [ih fun x hx => h x (List.mem_cons_of_mem a hx)]
    · have hfa : f a = none := h a (List.mem_cons_self a t) (by simpa using hp)
      simp only [List.filter_cons, hp, if_false, List.filterMap_cons, hfa]
      exact ih fun x hx => h x (List.mem_cons_of_mem a hx)

/-- C4: the audio engine returns at most one record per script line; every
returned record's speaker id resolves in the supplied cast; and an oracle
that fails on line `i` yields exactly the output of processing every other
line — line `i` contributes no audio and no record, and the rest of the
episode is not aborted. -/
theorem generate_show_audio_drop_on_failure (cast : ℤ → Option Character)
    (tts : ℕ → String → String → Option ℕ) (script : List ScriptLine) :
    (generate_show_audio cast tts script).2.length ≤ script.length ∧
    (∀ r ∈ (generate_show_audio cast tts script).2,
      (cast r.speaker_id).isSome = true) ∧
    (∀ i : ℕ, (∀ t s, tts i t s = none) →
      generate_show_audio cast tts script =
        ((script.enum.filter fun p => p.1 != i).filterMap fun p =>
          (process_line cast tts p.1 p.2).map Prod.fst,
         (script.enum.filter fun p => p.1 != i).filterMap fun p =>
          (process_line cast tts p.1 p.2).map Prod.snd)) := by
  have hgo := generate_show_audio_go_eq cast tts script 0
  refine ⟨?_, ?_, ?_⟩
  · rw [generate_show_audio, hgo]
    calc ((script.enumFrom 0).filterMap fun p =>
          (process_line cast tts p.1 p.2).map Prod.snd).length
        ≤ (script.enumFrom 0).length := List.length_filterMap_le _ _
      _ = script.length := by simp
  · intro r hr
    rw [generate_show_audio, hgo] at hr
    simp only [List.mem_filterMap] at hr
    obtain ⟨p, _, hp⟩ := hr
    cases hx : process_line cast tts p.1 p.2 with
    | none => rw [hx] at hp; exact absurd hp (by simp)
    | some x =>
      rw [hx] at hp
      simp only [Option.map_some', Option.some.injEq] at hp
      obtain ⟨hc, hs, _⟩ := process_line_speaker hx
      rw [← hp, hs]
      exact hc
  · intro i hi
    have hnone : ∀ p ∈ script.enum, (p.1 != i) = false →
        ((process_line cast tts p.1 p.2).map Prod.fst = none ∧
         (process_line cast tts p.1 p.2).map Prod.snd = none) := by
      intro p _ hp
      have hpi : p.1 = i := by simpa using hp
      have : process_line cast tts p.1 p.2 = none := by
        unfold process_line
        cases hc : cast p.2.speaker_id with
        | none => rfl
        | some character => simp [hpi, hi]
      simp [this]
    rw [generate_show_audio, hgo]
    have h1 := filterMap_eq_of_filter
      (fun p => (process_line cast tts p.1 p.2).map Prod.fst)
      (fun p => p.1 != i) script.enum (fun x hx h => (hnone x hx h).1)
    have h2 := filterMap_eq_of_filter
      (fun p => (process_line cast tts p.1 p.2).map Prod.snd)
      (fun p => p.1 != i) script.enum (fun x hx h => (hnone x hx h).2)
    rw [List.enum] at h1 h2 ⊢
    rw [← h1, ← h2]

/-- Witness for C4 on a concrete one-line script with an always-failing
TTS oracle. -/
theorem generate_show_audio_drop_on_failure_witness :
    (generate_show_audio (fun _ => none) (fun _ _ _ => none)
        [⟨1, "hi", ""⟩]).2.length ≤ 1 ∧
    (∀ r ∈ (generate_show_audio (fun _ => none) (fun _ _ _ => none)
        [⟨1, "hi", ""⟩]).2, ((fun _ : ℤ => (none : Option Character))
          r.speaker_id).isSome = true) ∧
    generate_show_audio (fun _ => none) (fun _ _ _ => none) [⟨1, "hi", ""⟩] =
      ((([⟨1, "hi", ""⟩] : List ScriptLine).enum.filter
          fun p => p.1 != 0).filterMap fun p =>
          (process_line (fun _ => none) (fun _ _ _ => none) p.1 p.2).map Prod.fst,
       (([⟨1, "hi", ""⟩] : List ScriptLine).enum.filter
          fun p => p.1 != 0).filterMap fun p =>
          (process_line (fun _ => none) (fun _ _ _ => none) p.1 p.2).map Prod.snd) :=
  ⟨(generate_show_audio_drop_on_failure _ _ _).1,
   (generate_show_audio_drop_on_failure _ _ _).2.1,
   (generate_show_audio_drop_on_failure _ _ _).2.2 0 (fun _ _ => rfl)⟩

/-- C5: the master audio track is the concatenation of exactly the
successfully synthesized clips in script order — it equals the returned
records' durations in order, so its total duration is the sum of the
returned records' durations. -/
theorem master_audio_concat_order (cast : ℤ → Option Character)
    (tts : ℕ → String → String → Option ℕ) (script : List ScriptLine) :
    (generate_show_audio cast tts script).1 =
      (generate_show_audio cast tts script).2.map (fun r => r.duration_ms) ∧
    (generate_show_audio cast tts script).1.sum =
      ((generate_show_audio cast tts script).2.map (fun r => r.duration_ms)).sum ∧
    (generate_show_audio cast tts script).1 =
      script.enum.filterMap fun p =>
        (process_line cast tts p.1 p.2).map Prod.fst := by
  have hgo := generate_show_audio_go_eq cast tts script 0
  have hfst : (generate_show_audio cast tts script).1 =
      (generate_show_audio cast tts script).2.map (fun r => r.duration_ms) := by
    rw [generate_show_audio, hgo]
    induction script.enumFrom 0 with
    | nil => rfl
    | cons p t ih =>
      simp only [List.filterMap_cons]
      cases hx : process_line cast tts p.1 p.2 with
      | none => simpa using ih
      | some x =>
        obtain ⟨_, _, hdur⟩ := process_line_speaker hx
        simp only [Option.map_some', List.map_cons, hdur]
        exact congrArg (List.cons x.2.duration_ms) ih
  exact ⟨hfst, by rw [hfst], by rw [generate_show_audio, hgo, List.enum]⟩

/-- C8: voice resolution maps a recognized voice key through
`VOICE_MODEL_MAP`, and for an unrecognized key falls back by gender to
one of exactly the two canonical voices p226/p225, whose gender matches
the speaker's, so the fallback never crosses gender. -/
theorem resolve_speaker_policy (c : Character)
    (hg : c.gender = "male" ∨ c.gender = "female") :
    (∀ s, VOICE_MODEL_MAP.lookup c.voice = some s → resolve_speaker c = s) ∧
    (VOICE_MODEL_MAP.lookup c.voice = none →
      (resolve_speaker c = "p226" ∨ resolve_speaker c = "p225") ∧
      voice_gender (resolve_speaker c) = some c.gender) := by
  constructor
  · intro s hs
    simp [resolve_speaker, hs]
  · intro hnone
    rcases hg with h | h
    · have hr : resolve_speaker c = "p226" := by simp [resolve_speaker, hnone, h]
      rw [hr, h]
      exact ⟨Or.inl rfl, by decide⟩
    · have hr : resolve_speaker c = "p225" := by simp [resolve_speaker, hnone, h]
      rw [hr, h]
      exact ⟨Or.inr rfl, by decide⟩

/-- Witness for C8 at the actual static host Jack, whose voice key
`host_male` is not in the mapping table. -/
theorem resolve_speaker_policy_witness :
    (("male" : String) = "male" ∨ ("male" : String) = "female") ∧
    ((∀ s, VOICE_MODEL_MAP.lookup (Character.mk 1 "Jack" "male" "host_male").voice =
        some s → resolve_speaker (Character.mk 1 "Jack" "male" "host_male") = s) ∧
     (VOICE_MODEL_MAP.lookup (Character.mk 1 "Jack" "male" "host_male").voice = none →
      (resolve_speaker (Character.mk 1 "Jack" "male" "host_male") = "p226" ∨
       resolve_speaker (Character.mk 1 "Jack" "male" "host_male") = "p225") ∧
      voice_gender (resolve_speaker (Character.mk 1 "Jack" "male" "host_male")) =
        some (Character.mk 1 "Jack" "male" "host_male").gender)) :=
  ⟨Or.inl rfl, resolve_speaker_policy _ (Or.inl rfl)⟩

/-! ## Show engine (`show_engine.py`) and script receipt (`scheduler.py`)

`ShowEngine.generate_script` (lines 309-341) post-processes the script
returned by the LLM with an "ID fixer" loop: a string `speaker_id` is
lowercased, stripped and looked up in a name map (host name, guest name,
"host", "guest"), defaulting to the guest's id when unknown; an integer
`speaker_id` outside {host id, guest id} is replaced by the guest's id; a
line whose dict has no `speaker_id` key raises `KeyError` at the final
`line['speaker_id']` comparison (the loop runs inside the function's
`try`, so the exception propagates and aborts the cycle); any other value
(e.g. `None`, a float) is left untouched.  `run_show_cycle`
(`scheduler.py` lines 79-81) then aborts on an empty script. -/

/-- A Python value in the `speaker_id` slot of a script line. -/
inductive PyVal where
  | str : String → PyVal
  | int : ℤ → PyVal
  | null : PyVal
deriving Repr, DecidableEq

/-- A raw script line as returned by the LLM: `speaker_id := none` means
the dict has no `speaker_id` key at all; `PyVal.null` stands for a
present value that is neither a string nor an integer. -/
structure RawLine where
  speaker_id : Option PyVal
  text : Option String
deriving Repr, DecidableEq

/-- The `name_map` dict of `generate_script`.  Python dict insertion
order is host name, guest name, "host", "guest", and later insertions
shadow earlier equal keys, so the association list is consulted in
reverse insertion order. -/
def name_map (host guest : Character) : List (String × ℤ) :=
  [("guest", guest.id), ("host", host.id),
   (pyLower guest.name, guest.id), (pyLower host.name, host.id)]

/-- One iteration of the ID-fixer loop of `generate_script`. -/
def fix_line (host guest : Character) (line : RawLine) : Except String RawLine :=
  match line.speaker_id with
  | some (PyVal.str s) =>
    let sl := pyStrip (pyLower s)
    match (name_map host guest).lookup sl with
    | some cid => Except.ok { line with speaker_id := some (PyVal.int cid) }
    | none => Except.ok { line with speaker_id := some (PyVal.int guest.id) }
  | some (PyVal.int n) =>
    if n = host.id ∨ n = guest.id then Except.ok line
    else Except.ok { line with speaker_id := some (PyVal.int guest.id) }
  | some PyVal.null => Except.ok line
  | none => Except.error "KeyError: speaker_id"

/-- The full ID-fixer loop of `generate_script`: the first missing
`speaker_id` key aborts (KeyError), otherwise every line is rewritten in
place and the script returned. -/
def fix_speaker_ids (host guest : Character) :
    List RawLine → Except String (List RawLine)
  | [] => Except.ok []
  | line :: rest =>
    match fix_line host guest line with
    | Except.error e => Except.error e
    | Except.ok fixed =>
      match fix_speaker_ids host guest rest with
      | Except.error e => Except.error e
      | Except.ok frest => Except.ok (fixed :: frest)

/-- Script receipt by the pipeline: the fixer inside
`ShowEngine.generate_script` followed by `run_show_cycle`'s
`if not script: raise ValueError(...)` check (`scheduler.py` lines 79-81). -/
def receive_script (host guest : Character) (script : List RawLine) :
    Except String (List RawLine) :=
  match fix_speaker_ids host guest script with
  | Except.error e => Except.error e
  | Except.ok fixed =>
    if fixed.isEmpty then
      Except.error "Script generation returned an empty script."
    else Except.ok fixed

/-- The static host Jack from `CharacterManager._load_static_characters`. -/
def jackHost : Character := ⟨1, "Jack", "male", "host_male"⟩

/-- A guest as built by `CharacterManager.select_show_participants`
(id 100, voice key `guest_voice`). -/
def demoGuest : Character := ⟨100, "Mary", "female", "guest_voice"⟩

/-- What one pass of the ID fixer guarantees for a line: a string or
integer speaker id is normalized to the host's or the guest's id; a
present non-string non-integer value leaves the line untouched; a missing
key never reaches the output. -/
def speaker_fixed (host guest : Character) (a b : RawLine) : Prop :=
  match a.speaker_id with
  | some (PyVal.str _) => b.speaker_id = some (PyVal.int host.id) ∨
      b.speaker_id = some (PyVal.int guest.id)
  | some (PyVal.int _) => b.speaker_id = some (PyVal.int host.id) ∨
      b.speaker_id = some (PyVal.int guest.id)
  | some PyVal.null => b = a
  | none => False

lemma name_map_lookup_mem {host guest : Character} {sl : String} {cid : ℤ}
    (h : (name_map host guest).lookup sl = some cid) :
    cid = host.id ∨ cid = guest.id := by
  simp only [name_map, List.lookup] at h
  split at h
  · exact Or.inr (Option.some.inj h).symm
  · split at h
    · exact Or.inl (Option.some.inj h).symm
    · split at h
      · exact Or.inr (Option.some.inj h).symm
      · split at h
        · exact Or.inl (Option.some.inj h).symm
        · exact absurd h (by simp)

lemma fix_line_ok {host guest : Character} {a b : RawLine}
    (h : fix_line host guest a = Except.ok b) : speaker_fixed host guest a b := by
  cases hs : a.speaker_id with
  | none => simp [fix_line, hs] at h
  | some v =>
    cases v with
    | str s =>
      simp only [speaker_fixed, hs]
      cases hl : (name_map host guest).lookup (pyStrip (pyLower s)) with
      | none =>
        simp only [fix_line, hs, hl, Except.ok.injEq] at h
        subst h
        exact Or.inr rfl
      | some cid =>
        simp only [fix_line, hs, hl, Except.ok.injEq] at h
        subst h
        rcases name_map_lookup_mem hl with hcid | hcid
        · exact Or.inl (by rw [hcid])
        · exact Or.inr (by rw [hcid])
    | int n =>
      simp only [speaker_fixed, hs]
      by_cases hin : n = host.id ∨ n = guest.id
      · simp only [fix_line, hs, if_pos hin, Except.ok.injEq] at h
        subst h
        rcases hin with hh | hh
        · exact Or.inl (by rw [hs, hh])
        · exact Or.inr (by rw [hs, hh])
      · simp only [fix_line, hs, if_neg hin, Except.ok.injEq] at h
        subst h
        exact Or.inr rfl
    | null =>
      simp only [fix_line, hs, Except.ok.injEq] at h
      subst h
      simp [speaker_fixed, hs]

/-- C9 (amended): whenever the ID fixer returns normally, the output has
one line per input line and: every line whose incoming `speaker_id` was a
string or an integer ends up with the host's or the guest's id; a line
whose `speaker_id` was present but neither a string nor an integer (e.g.
`None`) is left unchanged — not normalized; a line with no `speaker_id`
key never returns normally. -/
theorem fix_speaker_ids_normalizes (host guest : Character)
    (script fixed : List RawLine)
    (h : fix_speaker_ids host guest script = Except.ok fixed) :
    List.Forall₂ (speaker_fixed host guest) script fixed ∧
    fixed.length = script.length := by
  suffices hs : List.Forall₂ (speaker_fixed host guest) script fixed by
    exact ⟨hs, hs.length_eq.symm⟩
  induction script generalizing fixed with
  | nil =>
    simp only [fix_speaker_ids, Except.ok.injEq] at h
    subst h
    exact List.Forall₂.nil
  | cons line rest ih =>
    cases hl : fix_line host guest line with
    | error e => simp [fix_speaker_ids, hl] at h
    | ok b =>
      cases hr : fix_speaker_ids host guest rest with
      | error e => simp [fix_speaker_ids, hl, hr] at h
      | ok bs =>
        simp only [fix_speaker_ids, hl, hr, Except.ok.injEq] at h
        subst h
        exact List.Forall₂.cons (fix_line_ok hl) (ih bs hr)

/-- Witness for C9 on a concrete one-line script with an out-of-cast
integer speaker id. -/
theorem fix_speaker_ids_normalizes_witness :
    List.Forall₂ (speaker_fixed jackHost demoGuest)
      [⟨some (PyVal.int 999), some "hi"⟩]
      [⟨some (PyVal.int 100), some "hi"⟩] ∧
    ([⟨some (PyVal.int 100), some "hi"⟩] : List RawLine).length =
      ([⟨some (PyVal.int 999), some "hi"⟩] : List RawLine).length :=
  fix_speaker_ids_normalizes jackHost demoGuest _ _ rfl

/-- C9 counterexample: a line whose `speaker_id` is present but neither a
string nor an integer (Python `None`, a float, ...) is returned unchanged
by `generate_script`: its speaker id is left unresolved, equal to neither
the host's nor the guest's id. -/
theorem fix_speaker_ids_leaves_null_unresolved :
    fix_speaker_ids jackHost demoGuest [⟨some PyVal.null, some "hi"⟩] =
      Except.ok [⟨some PyVal.null, some "hi"⟩] ∧
    some PyVal.null ≠ some (PyVal.int jackHost.id) ∧
    some PyVal.null ≠ some (PyVal.int demoGuest.id) := by
  refine ⟨rfl, by decide, by decide⟩

/-- C3 (amended): on receipt the pipeline aborts the cycle for an empty
script and for a line with no `speaker_id` key (a `KeyError` escaping
`generate_script`); but a line whose `speaker_id` is an integer outside
the supplied cast is NOT rejected — it is silently remapped to the
guest's id and the cycle proceeds; the `text` field is not validated at
receipt at all. -/
theorem receive_script_validation (host guest : Character) :
    receive_script host guest [] =
      Except.error "Script generation returned an empty script." ∧
    (∀ (line : RawLine) (rest : List RawLine), line.speaker_id = none →
      receive_script host guest (line :: rest) =
        Except.error "KeyError: speaker_id") ∧
    (∀ (n : ℤ) (t : Option String), n ≠ host.id → n ≠ guest.id →
      receive_script host guest [⟨some (PyVal.int n), t⟩] =
        Except.ok [⟨some (PyVal.int guest.id), t⟩]) := by
  refine ⟨rfl, ?_, ?_⟩
  · intro line rest hnone
    simp [receive_script, fix_speaker_ids, fix_line, hnone]
  · intro n t h1 h2
    have hin : ¬(n = host.id ∨ n = guest.id) := by tauto
    simp [receive_script, fix_speaker_ids, fix_line, hin, List.isEmpty]

/-- Witness for C3 at concrete cast members and concrete bad scripts. -/
theorem receive_script_validation_witness :
    receive_script jackHost demoGuest [] =
      Except.error "Script generation returned an empty script." ∧
    receive_script jackHost demoGuest [⟨none, some "hi"⟩] =
      Except.error "KeyError: speaker_id" ∧
    receive_script jackHost demoGuest [⟨some (PyVal.int 999), some "hi"⟩] =
      Except.ok [⟨some (PyVal.int demoGuest.id), some "hi"⟩] :=
  ⟨(receive_script_validation jackHost demoGuest).1,
   (receive_script_validation jackHost demoGuest).2.1 _ [] rfl,
   (receive_script_validation jackHost demoGuest).2.2 999 (some "hi")
     (by decide) (by decide)⟩

/-- C3 counterexample: a script line carrying the unresolvable integer
speaker id 999 — not the id of any supplied cast member — is accepted:
script receipt returns normally with the line remapped to the guest,
instead of rejecting the script and aborting the cycle. -/
theorem receive_script_accepts_unresolvable_id :
    ((999 : ℤ) ≠ jackHost.id ∧ (999 : ℤ) ≠ demoGuest.id) ∧
    receive_script jackHost demoGuest [⟨some (PyVal.int 999), some "hi"⟩] =
      Except.ok [⟨some (PyVal.int 100), some "hi"⟩] := by
  refine ⟨⟨by decide, by decide⟩, rfl⟩

/-! ## Posting engine (`posting_engine.py`)

`PostingEngine._upload_to_facebook` (lines 98-194) runs
`for attempt in range(max_retries)` (the call site uses the default
budget `max_retries = 3`); each attempt performs the three-phase
start/transfer/finish upload; `RequestException` or a `RuntimeError`
raised by an embedded error indicator is caught, and if another attempt
remains the code sleeps `30 * (attempt + 1)` seconds and retries the
whole sequence; the final failed attempt re-raises.
`PostingEngine.post_all_parts` (lines 62-96) loops over the parts; each
part's upload runs in a `try` whose `except` logs and continues, and
whose `finally` always calls `cleanup_posted_part` exactly once.
An attempt is modeled by an oracle `outcome : ℕ → Bool` — `true` iff the
k-th three-phase attempt succeeds end-to-end. -/

/-- The upload retry budget: the `max_retries = 3` default used by the
only call site. -/
def MAX_RETRIES : ℕ := 3

/-- The retry loop of `_upload_to_facebook` from attempt number `attempt`
with `fuel` loop iterations remaining (`fuel` starts at `MAX_RETRIES` and
mirrors `range(max_retries)`).  Returns whether the upload eventually
succeeded and the list of backoff delays slept, in order. -/
def upload_go (outcome : ℕ → Bool) (max_retries : ℕ) :
    ℕ → ℕ → Bool × List ℕ
  | _, 0 => (false, [])
  | attempt, fuel + 1 =>
    if outcome attempt then (true, [])
    else if attempt < max_retries - 1 then
      let r := upload_go outcome max_retries (attempt + 1) fuel
      (r.1, 30 * (attempt + 1) :: r.2)
    else (false, [])

/-- `PostingEngine._upload_to_facebook` at the retry-protocol level:
`false` in the first component models exhausting the budget and
re-raising. -/
def upload_to_facebook (outcome : ℕ → Bool) : Bool × List ℕ :=
  upload_go outcome MAX_RETRIES 0 MAX_RETRIES

/-- Outcome of `post_all_parts` for one part. -/
structure PartResult where
  path : String
  attempted : Bool
  posted : Bool
  cleanup_count : ℕ
deriving Repr, DecidableEq

/-- `PostingEngine.post_all_parts`: when unconfigured, every part is
released without a network call; otherwise each part is uploaded inside
`try/except/finally` — the `except` swallows the per-part failure so the
loop continues, and the `finally` releases the part file exactly once.
`outcome i k` is the oracle for attempt `k` of part index `i`. -/
def post_all_parts (is_configured : Bool) (outcome : ℕ → ℕ → Bool)
    (parts : List String) : List PartResult :=
  if is_configured = false then
    parts.map fun p => ⟨p, false, false, 1⟩
  else
    parts.enum.map fun pr =>
      ⟨pr.2, true, (upload_to_facebook (outcome pr.1)).1, 1⟩

/-- C6: under the fixed budget of 3 attempts, a part whose attempts all
fail sleeps exactly the backoff delays 30 s then 60 s — strictly
increasing, each double the previous — and then surfaces the failure;
the upload succeeds iff some attempt within the budget succeeds; and for
every part, configured or not, succeeding or not, the part file is
released exactly once and a failed part does not prevent the remaining
parts from being attempted (every part appears in the result, attempted
whenever posting is configured). -/
theorem publish_retry_contract (outcome : ℕ → Bool) (is_configured : Bool)
    (pouts : ℕ → ℕ → Bool) (parts : List String) :
    ((∀ k, k < MAX_RETRIES → outcome k = false) →
      upload_to_facebook outcome = (false, [30, 60]) ∧
      (30 : ℕ) < 60 ∧ 60 = 2 * 30) ∧
    ((upload_to_facebook outcome).1 = (outcome 0 || outcome 1 || outcome 2)) ∧
    ((post_all_parts is_configured pouts parts).length = parts.length ∧
     ∀ r ∈ post_all_parts is_configured pouts parts,
       r.cleanup_count = 1 ∧ (is_configured = true → r.attempted = true)) := by
  refine ⟨?_, ?_, ?_, ?_⟩
  · intro hall
    have h0 := hall 0 (by norm_num [MAX_RETRIES])
    have h1 := hall 1 (by norm_num [MAX_RETRIES])
    have h2 := hall 2 (by norm_num [MAX_RETRIES])
    refine ⟨?_, by norm_num, by norm_num⟩
    simp [upload_to_facebook, upload_go, MAX_RETRIES, h0, h1, h2]
  · cases h0 : outcome 0 <;> cases h1 : outcome 1 <;> cases h2 : outcome 2 <;>
      simp [upload_to_facebook, upload_go, MAX_RETRIES, h0, h1, h2]
  · cases is_configured <;> simp [post_all_parts]
  · intro r hr
    cases is_configured with
    | false =>
      simp only [post_all_parts, if_true, if_false] at hr
      rcases List.mem_map.mp hr with ⟨p, -, rfl⟩
      exact ⟨rfl, by simp⟩
    | true =>
      simp only [post_all_parts, if_true, if_false] at hr
      rcases List.mem_map.mp hr with ⟨pr, -, rfl⟩
      exact ⟨rfl, fun _ => rfl⟩

/-- Witness for C6: with the all-fail oracle on a concrete two-part list,
the budget is exhausted with delays [30, 60], both parts are attempted
and both are cleaned up exactly once. -/
theorem publish_retry_contract_witness :
    ((∀ k, k < MAX_RETRIES → (fun _ : ℕ => false) k = false) →
      upload_to_facebook (fun _ => false) = (false, [30, 60]) ∧
      (30 : ℕ) < 60 ∧ 60 = 2 * 30) ∧
    ((upload_to_facebook (fun _ => false)).1 =
      ((fun _ : ℕ => false) 0 || (fun _ : ℕ => false) 1 || (fun _ : ℕ => false) 2)) ∧
    ((post_all_parts true (fun _ _ => false) ["part_1.mp4", "part_2.mp4"]).length =
      (["part_1.mp4", "part_2.mp4"] : List String).length ∧
     ∀ r ∈ post_all_parts true (fun _ _ => false) ["part_1.mp4", "part_2.mp4"],
       r.cleanup_count = 1 ∧ (true = true → r.attempted = true)) :=
  publish_retry_contract (fun _ => false) true (fun _ _ => false)
    ["part_1.mp4", "part_2.mp4"]

/-! ## Storage manager (`podcast_bot/storage_manager.py`)

`StorageManager._safe_delete` (lines 122-138) runs its existence check
and deletion inside `try`: a non-existent path returns early, `rmtree`
removes a directory with its subtree, `os.remove` removes a file, and
`OSError` / `shutil.Error` are caught, logged and swallowed — the
function never raises.  `cleanup_show_media` (lines 83-110) applies it to
the four per-show directories and the three stray top-level files.  The
filesystem is modeled as the list of existing entry paths plus the set of
paths whose deletion raises (e.g. for lack of permission); a failed
deletion leaves the state unchanged. -/

/-- A filesystem state: the existing entries, and the paths whose
deletion attempt raises `OSError`. -/
structure FSState where
  paths : List String
  failing : List String
deriving Repr, DecidableEq

/-- `p` is the entry `dir` itself or lies in the subtree below it. -/
def isUnder (dir p : String) : Bool :=
  p == dir || (dir ++ "/").data.isPrefixOf p.data

/-- The deletion attempt inside `_safe_delete`'s `try` block
(`shutil.rmtree` / `os.remove`): raises on a failing path, otherwise
removes the entry together with its subtree. -/
def delete_attempt (fs : FSState) (path : String) : Except String FSState :=
  if path ∈ fs.failing then Except.error "OSError"
  else Except.ok { fs with paths := fs.paths.filter fun q => !(isUnder path q) }

/-- `StorageManager._safe_delete`: deleting a non-existent path is a
no-op, and a raised `OSError` / `shutil.Error` is caught and swallowed,
so the function is total — it never raises. -/
def safe_delete (fs : FSState) (path : String) : FSState :=
  if path ∈ fs.paths then
    match delete_attempt fs path with
    | Except.ok fs2 => fs2
    | Except.error _ => fs
  else fs

/-- `config.AUDIO_DIR`. -/
def AUDIO_DIR : String := "temp/audio"

/-- `config.SUBTITLES_DIR`. -/
def SUBTITLES_DIR : String := "temp/subtitles"

/-- `config.VIDEO_DIR`. -/
def VIDEO_DIR : String := "temp/video"

/-- `config.PARTS_DIR`. -/
def PARTS_DIR : String := "temp/parts"

/-- The paths `cleanup_show_media` deletes, in order: the four per-show
directories, then the stray master audio, master video and subtitle
files named with the show id. -/
def cleanup_targets (show_id : String) : List String :=
  [AUDIO_DIR ++ "/" ++ show_id,
   SUBTITLES_DIR ++ "/" ++ show_id,
   VIDEO_DIR ++ "/" ++ show_id,
   PARTS_DIR ++ "/" ++ show_id,
   AUDIO_DIR ++ "/master_audio_" ++ show_id ++ ".wav",
   VIDEO_DIR ++ "/final_show_video_" ++ show_id ++ ".mp4",
   SUBTITLES_DIR ++ "/subtitles_" ++ show_id ++ ".srt"]

/-- `StorageManager.cleanup_show_media`: `_safe_delete` applied to every
cleanup target in order. -/
def cleanup_show_media (fs : FSState) (show_id : String) : FSState :=
  (cleanup_targets show_id).foldl safe_delete fs

lemma safe_delete_not_exists {fs : FSState} {p : String} (h : p ∉ fs.paths) :
    safe_delete fs p = fs := by
  simp [safe_delete, h]

lemma safe_delete_failing {fs : FSState} {p : String} (h : p ∈ fs.failing) :
    safe_delete fs p = fs := by
  by_cases hp : p ∈ fs.paths
  · simp [safe_delete, delete_attempt, hp, h]
  · simp [safe_delete, hp]

lemma safe_delete_failing_eq (fs : FSState) (p : String) :
    (safe_delete fs p).failing = fs.failing := by
  by_cases hf : p ∈ fs.failing
  · rw [safe_delete_failing hf]
  · by_cases hp : p ∈ fs.paths
    · simp [safe_delete, delete_attempt, hp, hf]
    · simp [safe_delete, hp]

lemma safe_delete_paths_subset {fs : FSState} {p q : String}
    (h : q ∈ (safe_delete fs p).paths) : q ∈ fs.paths := by
  by_cases hf : p ∈ fs.failing
  · rwa [safe_delete_failing hf] at h
  · by_cases hp : p ∈ fs.paths
    · simp only [safe_delete, delete_attempt, hp, if_pos, if_neg hf,
        List.mem_filter, Bool.not_eq_true'] at h
      exact h.1
    · rwa [safe_delete_not_exists hp] at h

lemma safe_delete_self_gone (fs : FSState) (p : String) :
    p ∉ (safe_delete fs p).paths ∨ p ∈ fs.failing := by
  by_cases hf : p ∈ fs.failing
  · exact Or.inr hf
  · by_cases hp : p ∈ fs.paths
    · left
      simp only [safe_delete, delete_attempt, hp, if_pos, if_neg hf]
      simp only [List.mem_filter]
      intro hmem
      have : isUnder p p = true := by simp [isUnder]
      simp [this] at hmem
    · left
      rw [safe_delete_not_exists hp]
      exact hp

lemma foldl_safe_delete_failing_eq (ts : List String) :
    ∀ fs : FSState, (ts.foldl safe_delete fs).failing = fs.failing := by
  induction ts with
  | nil => intro fs; rfl
  | cons t ts ih =>
    intro fs
    rw [List.foldl_cons, ih (safe_delete fs t), safe_delete_failing_eq]

lemma foldl_safe_delete_paths_subset (ts : List String) :
    ∀ (fs : FSState) (q : String), q ∈ (ts.foldl safe_delete fs).paths →
      q ∈ fs.paths := by
  induction ts with
  | nil => intro fs q h; exact h
  | cons t ts ih =>
    intro fs q h
    rw [List.foldl_cons] at h
    exact safe_delete_paths_subset (ih (safe_delete fs t) q h)

lemma foldl_safe_delete_gone (ts : List String) :
    ∀ (fs : FSState) (p : String), p ∈ ts →
      p ∉ (ts.foldl safe_delete fs).paths ∨ p ∈ fs.failing := by
  induction ts with
  | nil => intro fs p h; exact absurd h (List.not_mem_nil p)
  | cons t ts ih =>
    intro fs p hmem
    rw [List.foldl_cons]
    rcases List.mem_cons.mp hmem with rfl | hmem
    · rcases safe_delete_self_gone fs p with hgone | hfail
      · left
        intro hin
        exact hgone (foldl_safe_delete_paths_subset ts (safe_delete fs p) p hin)
      · exact Or.inr hfail
    · rcases ih (safe_delete fs t) p hmem with hgone | hfail
      · exact Or.inl hgone
      · rw [safe_delete_failing_eq] at hfail
        exact Or.inr hfail

lemma foldl_safe_delete_noop (ts : List String) :
    ∀ fs : FSState, (∀ p ∈ ts, p ∉ fs.paths ∨ p ∈ fs.failing) →
      ts.foldl safe_delete fs = fs := by
  induction ts with
  | nil => intro fs _; rfl
  | cons t ts ih =>
    intro fs h
    have ht : safe_delete fs t = fs := by
      rcases h t (List.mem_cons_self t ts) with hgone | hfail
      · exact safe_delete_not_exists hgone
      · exact safe_delete_failing hfail
    rw [List.foldl_cons, ht]
    exact ih fs fun p hp => h p (List.mem_cons_of_mem t hp)

/-- C7 (amended): `cleanup_show_media` never raises (it is a total state
transformer: `_safe_delete` returns early on a non-existent path and
swallows every deletion error), deleting a non-existent path is a no-op,
a deletion error leaves the state unchanged rather than raising; when no
deletion error occurs, no per-episode directory and no stray
episode-named master-audio/master-video/subtitle file remains afterwards;
and cleanup is idempotent — a second call changes nothing (and so also
raises nothing).  When a deletion error IS swallowed, the affected path
remains behind (see the counterexample), so totality of removal holds
only in the error-free case. -/
theorem cleanup_show_media_contract (fs : FSState) (show_id : String) :
    (∀ p, p ∉ fs.paths → safe_delete fs p = fs) ∧
    (∀ p, p ∈ fs.failing → safe_delete fs p = fs) ∧
    (fs.failing = [] → ∀ t ∈ cleanup_targets show_id,
      t ∉ (cleanup_show_media fs show_id).paths) ∧
    cleanup_show_media (cleanup_show_media fs show_id) show_id =
      cleanup_show_media fs show_id := by
  refine ⟨fun p h => safe_delete_not_exists h,
    fun p h => safe_delete_failing h, ?_, ?_⟩
  · intro hnofail t ht
    rcases foldl_safe_delete_gone (cleanup_targets show_id) fs t ht with h | h
    · exact h
    · rw [hnofail] at h
      exact absurd h (List.not_mem_nil t)
  · refine foldl_safe_delete_noop _ _ fun p hp => ?_
    rcases foldl_safe_delete_gone (cleanup_targets show_id) fs p hp with h | h
    · exact Or.inl h
    · right
      simp only [cleanup_show_media]
      rw [foldl_safe_delete_failing_eq]
      exact h

/-- C7 counterexample: a filesystem state in which the per-episode audio
directory exists but its deletion raises.  Cleanup returns normally (the
error is swallowed), yet the per-episode directory is still there
afterwards — "no per-episode directory remains" does not hold for every
filesystem state. -/
def fsBad : FSState := ⟨["temp/audio/ep1"], ["temp/audio/ep1"]⟩

/-- C7 counterexample theorem (see `fsBad`). -/
theorem cleanup_leaves_failing_dir_behind :
    cleanup_show_media fsBad "ep1" = fsBad ∧
    "temp/audio/ep1" ∈ (cleanup_show_media fsBad "ep1").paths := by
  refine ⟨?_, ?_⟩ <;> decide

/-- A healthy filesystem state for the C7 witness: the episode directory
and a file inside it exist and nothing fails. -/
def fsGood : FSState :=
  ⟨["temp/audio/ep1", "temp/audio/ep1/line_000_1.wav"], []⟩

/-- Witness for C7 at concrete filesystem states. -/
theorem cleanup_show_media_contract_witness :
    safe_delete fsGood "nope" = fsGood ∧
    safe_delete fsBad "temp/audio/ep1" = fsBad ∧
    (AUDIO_DIR ++ "/" ++ "ep1") ∉ (cleanup_show_media fsGood "ep1").paths ∧
    cleanup_show_media (cleanup_show_media fsGood "ep1") "ep1" =
      cleanup_show_media fsGood "ep1" :=
  ⟨(cleanup_show_media_contract fsGood "ep1").1 "nope" (by decide),
   (cleanup_show_media_contract fsBad "ep1").2.1 "temp/audio/ep1" (by decide),
   (cleanup_show_media_contract fsGood "ep1").2.2.1 rfl _ (by decide),
   (cleanup_show_media_contract fsGood "ep1").2.2.2⟩

end AiRadioShowBot
